import Mathlib

/-!
# Verification of the py-quantix trading core

Shallow embedding of the algorithmic core of the repository:

* `Backtest` — `BacktestServiceImpl._run_backtest_simulation` and
  `_backtest_grid` from `src/domain/service/backtest_service_impl.py`;
* `Strategies` — `TrendFollowingStrategy`, `MeanReversionStrategy` and
  `TurtleTradingStrategy` from `src/strategies/`;
* `Engine` — the per-symbol dispatch cycle of `TradingEngine`
  (`run_once_for_symbol` / `_execute_trade`) from `src/core/engine.py`;
* `Validation` — `_validate_macd_parameters` from
  `src/domain/service/strategy_service_impl.py`.

Python floats are modelled as exact rationals (`ℚ`); pandas `NaN` cells are
modelled as `Option ℚ` with the pandas comparison semantics (any comparison
against `NaN` is `False`); Python exceptions are modelled with
`Except String`.
-/

namespace Backtest

/-- One row of the backtest DataFrame: the candle timestamp (epoch
milliseconds), the close and the two generated signal columns that
`_run_backtest_simulation` consumes. -/
structure SimRow where
  open_time : ℕ
  close : ℚ
  signal_buy : Bool
  signal_sell : Bool
  deriving Repr, DecidableEq

/-- Calendar-day truncation of a candle timestamp, the model of
`datetime.date()` applied to the `open_time` column (epoch ms → day). -/
def dateOf (t : ℕ) : ℕ := t / 86400000

/-- One recorded trade of `_run_backtest_simulation` (`trades.append({...})`).
`date` keeps the candle's `open_time`; `isoformat` round-trips it exactly. -/
structure Trade where
  date : ℕ
  type : String
  price : ℚ
  quantity : ℚ
  fee : ℚ
  balance : ℚ
  position_value : ℚ
  profit_loss : Option ℚ
  profit_loss_pct : Option ℚ
  deriving Repr, DecidableEq

/-- The mutable loop state of `_run_backtest_simulation`:
`balance`, `position`, `entry_price` and the trade log. -/
structure SimState where
  balance : ℚ
  position : ℚ
  entry_price : ℚ
  trades : List Trade
  deriving Repr, DecidableEq

/-- Initial state of the simulation loop
(`balance = initial_balance; position = 0; entry_price = 0; trades = []`). -/
def initState (initial_balance : ℚ) : SimState :=
  { balance := initial_balance, position := 0, entry_price := 0, trades := [] }

/-- One iteration of the candle loop of `_run_backtest_simulation`:
a BUY fires on `signal_buy and balance > 0`, otherwise (`elif`) a SELL fires
on `signal_sell and position > 0`, otherwise the state is unchanged. -/
def simStep (fee_rate : ℚ) (s : SimState) (r : SimRow) : SimState :=
  if r.signal_buy = true ∧ 0 < s.balance then
    let buy_amount := s.balance * 0.99
    let quantity := buy_amount / r.close
    let fee := buy_amount * fee_rate
    let t : Trade :=
      ⟨r.open_time, "BUY", r.close, quantity, fee, 0, quantity * r.close, none, none⟩
    { balance := 0, position := quantity, entry_price := r.close,
      trades := s.trades ++ [t] }
  else if r.signal_sell = true ∧ 0 < s.position then
    let sell_amount := s.position * r.close
    let fee := sell_amount * fee_rate
    let new_balance := sell_amount - fee
    let t : Trade :=
      ⟨r.open_time, "SELL", r.close, s.position, fee, new_balance, 0,
        some ((r.close - s.entry_price) * s.position - fee),
        some ((r.close / s.entry_price - 1) * 100)⟩
    { balance := new_balance, position := 0, entry_price := 0,
      trades := s.trades ++ [t] }
  else s

/-- The whole candle loop (`for i in range(len(df))`). -/
def simulate (fee_rate : ℚ) (initial_balance : ℚ) (rows : List SimRow) : SimState :=
  rows.foldl (simStep fee_rate) (initState initial_balance)

/-- The inner `for trade in trades` loop of the portfolio-value pass: every
trade whose calendar day equals the candle's day overwrites the running value
with its `position_value` (BUY) resp. its `balance` (SELL). -/
def applyTrades (day : ℕ) (v : ℚ) : List Trade → ℚ
  | [] => v
  | t :: ts =>
      applyTrades day
        (if dateOf t.date = day then
          (if t.type = "BUY" then t.position_value
           else if t.type = "SELL" then t.balance else v)
         else v) ts

/-- Tail of the portfolio-value pass (`for i in range(len(df))`, `i > 0`):
carry the previous value, overwrite it from same-day trades, then — only when
the position left at the END of the whole run is open — replace it by
`balance + position * close[i]` (the code consults the loop-final `position`
and `balance`, not the state at candle `i`). -/
def pvAux (trades : List Trade) (finalBal finalPos : ℚ) : ℚ → List SimRow → List ℚ
  | _, [] => []
  | prev, r :: rs =>
      let v1 := applyTrades (dateOf r.open_time) prev trades
      let v2 := if 0 < finalPos then finalBal + finalPos * r.close else v1
      v2 :: pvAux trades finalBal finalPos v2 rs

/-- The full portfolio-value series: candle 0 starts from `initial_balance`
(no trade matching), every candle is then subject to the final-position
mark-to-market override. -/
def portfolioValues (initial_balance : ℚ) (trades : List Trade)
    (finalBal finalPos : ℚ) : List SimRow → List ℚ
  | [] => []
  | r :: rs =>
      let v0 := if 0 < finalPos then finalBal + finalPos * r.close else initial_balance
      v0 :: pvAux trades finalBal finalPos v0 rs

/-- The drawdown loop: running maximum (updated first), then
`drawdown = (max_value - value) / max_value * 100`. -/
def mddAux (maxv dd : ℚ) : List ℚ → ℚ
  | [] => dd
  | v :: vs =>
      let m := max maxv v
      mddAux m (max dd ((m - v) / m * 100)) vs

/-- `max_value` is seeded with `portfolio_values[0]` and the loop then runs
over the whole series (the first element included).  The empty case is
unreachable in the source (`portfolio_values[0]` would raise). -/
def maxDrawdown : List ℚ → ℚ
  | [] => 0
  | v0 :: vs => mddAux v0 0 (v0 :: vs)

/-- The report dictionary returned by `_run_backtest_simulation`. -/
structure Report where
  initial_balance : ℚ
  final_balance : ℚ
  total_return : ℚ
  total_return_pct : ℚ
  max_drawdown : ℚ
  trades : List Trade
  portfolio_values : List ℚ
  deriving Repr, DecidableEq

/-- Close of the last candle (`df.iloc[-1]['close']`); only consulted when the
run ends with an open position, hence on a nonempty series. -/
def lastClose (rows : List SimRow) : ℚ :=
  match rows.getLast? with
  | some r => r.close
  | none => 0

/-- `_run_backtest_simulation`: run the candle loop, liquidate any open
position at the last close for `final_balance` only, then compute the
portfolio-value series and the maximum drawdown. -/
def runBacktestSimulation (rows : List SimRow) (initial_balance fee_rate : ℚ) : Report :=
  let s := simulate fee_rate initial_balance rows
  let final_balance :=
    s.balance + (if 0 < s.position then s.position * lastClose rows else 0)
  let pvs := portfolioValues initial_balance s.trades s.balance s.position rows
  { initial_balance := initial_balance,
    final_balance := final_balance,
    total_return := final_balance - initial_balance,
    total_return_pct := (final_balance / initial_balance - 1) * 100,
    max_drawdown := maxDrawdown pvs,
    trades := s.trades,
    portfolio_values := pvs }

/-- Grid levels of `_backtest_grid`:
`grid_size = (upper - lower) / grid_num`,
`grid_levels = [lower + i * grid_size for i in range(grid_num + 1)]`. -/
def gridLevels (upper_price lower_price : ℚ) (grid_num : ℕ) : List ℚ :=
  let grid_size := (upper_price - lower_price) / (grid_num : ℚ)
  (List.range (grid_num + 1)).map (fun i => lower_price + (i : ℚ) * grid_size)

/-- `prev_close < level and curr_close >= level` (upward crossing). -/
def crossUp (prev curr level : ℚ) : Bool :=
  decide (prev < level) && decide (level ≤ curr)

/-- `prev_close > level and curr_close <= level` (downward crossing). -/
def crossDown (prev curr level : ℚ) : Bool :=
  decide (level < prev) && decide (curr ≤ level)

/-- Crossing loop of `_backtest_grid` for candles `i ≥ 1`: the cell
`signal_buy[i]` ends up true iff some grid level is crossed upward between
candle `i-1` and candle `i`. -/
def gridBuyAux (levels : List ℚ) : ℚ → List ℚ → List Bool
  | _, [] => []
  | prev, c :: cs => levels.any (fun l => crossUp prev c l) :: gridBuyAux levels c cs

/-- The `signal_buy` column of `_backtest_grid`: initialised to `False`
everywhere, and the loop `for i in range(1, len(df))` never touches row 0. -/
def gridBuySignals (levels : List ℚ) : List ℚ → List Bool
  | [] => []
  | c :: cs => false :: gridBuyAux levels c cs

/-- The `signal_sell` column of `_backtest_grid` (downward crossings). -/
def gridSellAux (levels : List ℚ) : ℚ → List ℚ → List Bool
  | _, [] => []
  | prev, c :: cs => levels.any (fun l => crossDown prev c l) :: gridSellAux levels c cs

/-- `signal_sell` with its untouched first row. -/
def gridSellSignals (levels : List ℚ) : List ℚ → List Bool
  | [] => []
  | c :: cs => false :: gridSellAux levels c cs

lemma gridBuyAux_length (levels : List ℚ) :
    ∀ (prev : ℚ) (cs : List ℚ), (gridBuyAux levels prev cs).length = cs.length := by
  intro prev cs
  induction cs generalizing prev with
  | nil => rfl
  | cons c cs ih => simpa [gridBuyAux] using ih c

lemma gridBuySignals_length (levels : List ℚ) (cs : List ℚ) :
    (gridBuySignals levels cs).length = cs.length := by
  cases cs with
  | nil => rfl
  | cons c cs => simpa [gridBuySignals] using gridBuyAux_length levels c cs

lemma gridBuyAux_getD (levels : List ℚ) :
    ∀ (prev : ℚ) (cs : List ℚ) (i : ℕ), i < cs.length →
      (gridBuyAux levels prev cs).getD i false =
        levels.any (fun l =>
          crossUp (if i = 0 then prev else cs.getD (i - 1) 0) (cs.getD i 0) l) := by
  intro prev cs
  induction cs generalizing prev with
  | nil => intro i hi; simp at hi
  | cons c cs ih =>
      intro i hi
      cases i with
      | zero => simp [gridBuyAux]
      | succ j =>
          have hj : j < cs.length := by simpa using hi
          have := ih c j hj
          cases j with
          | zero => simpa [gridBuyAux] using this
          | succ j2 => simpa [gridBuyAux] using this

lemma gridBuySignals_getD_zero (levels : List ℚ) (cs : List ℚ) :
    (gridBuySignals levels cs).getD 0 false = false := by
  cases cs <;> simp [gridBuySignals]

lemma gridBuySignals_getD (levels : List ℚ) (cs : List ℚ) (i : ℕ)
    (h1 : 1 ≤ i) (h2 : i < cs.length) :
    (gridBuySignals levels cs).getD i false =
      levels.any (fun l => crossUp (cs.getD (i - 1) 0) (cs.getD i 0) l) := by
  cases cs with
  | nil => simp at h2
  | cons c cs =>
      cases i with
      | zero => omega
      | succ j =>
          have hj : j < cs.length := by simpa using h2
          have := gridBuyAux_getD levels c cs j hj
          cases j with
          | zero => simpa [gridBuySignals] using this
          | succ j2 => simpa [gridBuySignals] using this

/-- A row with neither signal set leaves the state untouched. -/
lemma simStep_no_signal (fee : ℚ) (s : SimState) (r : SimRow)
    (hb : r.signal_buy = false) (hs : r.signal_sell = false) :
    simStep fee s r = s := by
  simp [simStep, hb, hs]

/-- A run over signal-free rows is the identity on the state. -/
lemma foldl_no_signal (fee : ℚ) :
    ∀ (rows : List SimRow) (s : SimState),
      (∀ r ∈ rows, r.signal_buy = false ∧ r.signal_sell = false) →
      rows.foldl (simStep fee) s = s := by
  intro rows
  induction rows with
  | nil => intro s _; rfl
  | cons r rows ih =>
      intro s h
      have hr := h r (by simp)
      have := simStep_no_signal fee s r hr.1 hr.2
      simp only [List.foldl_cons, this]
      exact ih s (fun x hx => h x (by simp [hx]))

/-- States reachable by the simulation loop from a positive initial balance
through candles with positive closes. -/
inductive SimReachable (init fee : ℚ) : SimState → Prop where
  | base : 0 < init → SimReachable init fee (initState init)
  | step : ∀ {s : SimState} (r : SimRow), SimReachable init fee s → 0 < r.close →
      SimReachable init fee (simStep fee s r)

/-- Alternation checker over the trade-type log: `b = true` means the next
trade must be a `"BUY"`, `b = false` a `"SELL"`; the result is the expectation
left after the log, `none` if the log does not alternate. -/
def altRun : Bool → List String → Option Bool
  | b, [] => some b
  | b, t :: ts => if t = (if b then "BUY" else "SELL") then altRun (!b) ts else none

lemma altRun_append (t : String) :
    ∀ (l : List String) (b : Bool),
      altRun b (l ++ [t]) =
        match altRun b l with
        | some b2 => if t = (if b2 then "BUY" else "SELL") then some (!b2) else none
        | none => none := by
  intro l
  induction l with
  | nil => intro b; simp [altRun]
  | cons x xs ih =>
      intro b
      by_cases hx : x = (if b then "BUY" else "SELL") <;>
        simp [altRun, hx, ih]

/-- Loop invariant of `_run_backtest_simulation`: while LONG the cash balance
is exactly 0, and the trade log alternates BUY/SELL, ending on a BUY exactly
when the position is open. -/
def SimInv (s : SimState) : Prop :=
  (0 < s.position → s.balance = 0) ∧
  altRun true (s.trades.map Trade.type) = some (!(decide (0 < s.position)))

lemma simInv_init (init : ℚ) : SimInv (initState init) := by
  constructor
  · intro h; simp [initState] at h
  · simp [initState, altRun]

lemma simStep_buy (fee : ℚ) (s : SimState) (r : SimRow)
    (h : r.signal_buy = true ∧ 0 < s.balance) :
    (simStep fee s r).balance = 0 ∧
    (simStep fee s r).position = s.balance * 0.99 / r.close ∧
    (simStep fee s r).trades.map Trade.type = s.trades.map Trade.type ++ ["BUY"] := by
  simp [simStep, h]

lemma simStep_sell (fee : ℚ) (s : SimState) (r : SimRow)
    (h1 : ¬(r.signal_buy = true ∧ 0 < s.balance))
    (h2 : r.signal_sell = true ∧ 0 < s.position) :
    (simStep fee s r).position = 0 ∧
    (simStep fee s r).trades.map Trade.type = s.trades.map Trade.type ++ ["SELL"] := by
  simp [simStep, h1, h2]

lemma simStep_sell_balance (fee : ℚ) (s : SimState) (r : SimRow)
    (h1 : ¬(r.signal_buy = true ∧ 0 < s.balance))
    (h2 : r.signal_sell = true ∧ 0 < s.position) :
    (simStep fee s r).balance = s.position * r.close - s.position * r.close * fee := by
  simp [simStep, h1, h2]

lemma simStep_noop (fee : ℚ) (s : SimState) (r : SimRow)
    (h1 : ¬(r.signal_buy = true ∧ 0 < s.balance))
    (h2 : ¬(r.signal_sell = true ∧ 0 < s.position)) :
    simStep fee s r = s := by
  simp [simStep, h1, h2]

lemma simInv_step (fee : ℚ) (s : SimState) (r : SimRow) (hc : 0 < r.close)
    (h : SimInv s) : SimInv (simStep fee s r) := by
  obtain ⟨hbal, halt⟩ := h
  by_cases hbuy : r.signal_buy = true ∧ 0 < s.balance
  · -- BUY branch: the state must be FLAT (a LONG state has balance 0)
    obtain ⟨hb0, hpos, htr⟩ := simStep_buy fee s r hbuy
    have hflat : ¬ 0 < s.position := fun hp => absurd (hbal hp ▸ hbuy.2) (lt_irrefl 0)
    have hq : 0 < s.balance * 0.99 / r.close :=
      div_pos (mul_pos hbuy.2 (by norm_num)) hc
    refine ⟨fun _ => hb0, ?_⟩
    rw [htr, altRun_append, halt]
    have hq2 : 0 < (simStep fee s r).position := hpos ▸ hq
    simp [hflat, hq2]
  · by_cases hsell : r.signal_sell = true ∧ 0 < s.position
    · -- SELL branch: the log ended on a BUY, append the SELL
      obtain ⟨hpos, htr⟩ := simStep_sell fee s r hbuy hsell
      refine ⟨fun hp => absurd (hpos ▸ hp) (lt_irrefl 0), ?_⟩
      rw [htr, altRun_append, halt]
      simp [hsell.2, hpos]
    · rw [simStep_noop fee s r hbuy hsell]
      exact ⟨hbal, halt⟩

lemma simReachable_inv {init fee : ℚ} {s : SimState}
    (h : SimReachable init fee s) : SimInv s := by
  induction h with
  | base _ => exact simInv_init init
  | step r _ hc ih => exact simInv_step _ _ r hc ih

/-- Sign facts preserved by the candle loop when `fee_rate ≤ 1`: cash and
position stay nonnegative and every recorded trade carries a nonnegative
`balance` and `position_value` snapshot. -/
def GoodState (s : SimState) : Prop :=
  0 ≤ s.balance ∧ 0 ≤ s.position ∧
    ∀ t ∈ s.trades, 0 ≤ t.balance ∧ 0 ≤ t.position_value

lemma goodState_init {init : ℚ} (h : 0 ≤ init) : GoodState (initState init) := by
  refine ⟨h, le_refl 0, ?_⟩
  intro t ht
  simp [initState] at ht

lemma goodState_step (fee : ℚ) (hfee : fee ≤ 1) (s : SimState) (r : SimRow)
    (hc : 0 < r.close) (h : GoodState s) : GoodState (simStep fee s r) := by
  obtain ⟨hb, hp, ht⟩ := h
  by_cases hbuy : r.signal_buy = true ∧ 0 < s.balance
  · have hq : 0 ≤ s.balance * 0.99 / r.close :=
      div_nonneg (mul_nonneg hb (by norm_num)) hc.le
    refine ⟨by simp [simStep, hbuy], ?_, ?_⟩
    · simpa [simStep, hbuy] using hq
    · intro t htm
      simp only [simStep, if_pos hbuy, List.mem_append, List.mem_singleton] at htm
      rcases htm with htm | htm
      · exact ht t htm
      · subst htm
        exact ⟨le_refl 0, mul_nonneg hq hc.le⟩
  · by_cases hsell : r.signal_sell = true ∧ 0 < s.position
    · have hnb : 0 ≤ s.position * r.close - s.position * r.close * fee := by
        have hpc : 0 ≤ s.position * r.close := mul_nonneg hsell.2.le hc.le
        nlinarith
      refine ⟨?_, by simp [simStep, hbuy, hsell], ?_⟩
      · simpa [simStep, hbuy, hsell] using hnb
      · intro t htm
        simp only [simStep, if_neg hbuy, if_pos hsell, List.mem_append,
          List.mem_singleton] at htm
        rcases htm with htm | htm
        · exact ht t htm
        · subst htm
          exact ⟨hnb, le_refl 0⟩
    · rw [simStep_noop fee s r hbuy hsell]
      exact ⟨hb, hp, ht⟩

lemma goodState_foldl (fee : ℚ) (hfee : fee ≤ 1) :
    ∀ (rows : List SimRow) (s : SimState), GoodState s →
      (∀ r ∈ rows, 0 < r.close) → GoodState (rows.foldl (simStep fee) s) := by
  intro rows
  induction rows with
  | nil => intro s hs _; exact hs
  | cons r rs ih =>
      intro s hs hc
      simp only [List.foldl_cons]
      exact ih (simStep fee s r)
        (goodState_step fee hfee s r (hc r (by simp)) hs)
        (fun x hx => hc x (by simp [hx]))

lemma applyTrades_nonneg (day : ℕ) :
    ∀ (ts : List Trade) (v : ℚ), 0 ≤ v →
      (∀ t ∈ ts, 0 ≤ t.balance ∧ 0 ≤ t.position_value) →
      0 ≤ applyTrades day v ts := by
  intro ts
  induction ts with
  | nil => intro v hv _; exact hv
  | cons t ts ih =>
      intro v hv h
      have hnext : 0 ≤ (if dateOf t.date = day then
          (if t.type = "BUY" then t.position_value
           else if t.type = "SELL" then t.balance else v)
         else v) := by
        have := h t (by simp)
        split <;> [skip; exact hv]
        split
        · exact this.2
        · split
          · exact this.1
          · exact hv
      exact ih _ hnext (fun x hx => h x (by simp [hx]))

lemma pvAux_nonneg (trades : List Trade) (finalBal finalPos : ℚ)
    (hb : 0 ≤ finalBal)
    (ht : ∀ t ∈ trades, 0 ≤ t.balance ∧ 0 ≤ t.position_value) :
    ∀ (rows : List SimRow) (prev : ℚ), 0 ≤ prev →
      (∀ r ∈ rows, 0 < r.close) →
      ∀ v ∈ pvAux trades finalBal finalPos prev rows, 0 ≤ v := by
  intro rows
  induction rows with
  | nil => intro prev _ _ v hv; simp [pvAux] at hv
  | cons r rs ih =>
      intro prev hprev hc v hv
      simp only [pvAux, List.mem_cons] at hv
      have hv2 : 0 ≤ (if 0 < finalPos then finalBal + finalPos * r.close
          else applyTrades (dateOf r.open_time) prev trades) := by
        split
        · next hpos =>
            exact add_nonneg hb (mul_nonneg hpos.le (hc r (by simp)).le)
        · exact applyTrades_nonneg _ trades prev hprev ht
      rcases hv with hv | hv
      · exact hv ▸ hv2
      · exact ih _ hv2 (fun x hx => hc x (by simp [hx])) v hv

lemma mddAux_bounds :
    ∀ (vs : List ℚ) (maxv dd : ℚ), 0 < maxv → 0 ≤ dd → dd ≤ 100 →
      (∀ v ∈ vs, 0 ≤ v) → 0 ≤ mddAux maxv dd vs ∧ mddAux maxv dd vs ≤ 100 := by
  intro vs
  induction vs with
  | nil => intro maxv dd _ h0 h100 _; exact ⟨h0, h100⟩
  | cons v vs ih =>
      intro maxv dd hmax h0 h100 hvs
      have hv : 0 ≤ v := hvs v (by simp)
      have hm : 0 < max maxv v := lt_of_lt_of_le hmax (le_max_left _ _)
      have hdd0 : 0 ≤ max dd ((max maxv v - v) / max maxv v * 100) :=
        le_trans h0 (le_max_left _ _)
      have hddv : (max maxv v - v) / max maxv v * 100 ≤ 100 := by
        have h1 : (max maxv v - v) / max maxv v ≤ 1 :=
          (div_le_one hm).mpr (by linarith)
        calc (max maxv v - v) / max maxv v * 100 ≤ 1 * 100 :=
              mul_le_mul_of_nonneg_right h1 (by norm_num)
          _ = 100 := by norm_num
      have hdd100 : max dd ((max maxv v - v) / max maxv v * 100) ≤ 100 :=
        max_le h100 hddv
      exact ih (max maxv v) _ hm hdd0 hdd100 (fun x hx => hvs x (by simp [hx]))

lemma mddAux_zero_of_chain :
    ∀ (vs : List ℚ) (maxv : ℚ), List.Chain' (· ≤ ·) (maxv :: vs) →
      mddAux maxv 0 vs = 0 := by
  intro vs
  induction vs with
  | nil => intro maxv _; rfl
  | cons v vs ih =>
      intro maxv hchain
      rw [List.chain'_cons] at hchain
      have hmax : max maxv v = v := max_eq_right hchain.1
      simp only [mddAux, hmax, sub_self, zero_div, zero_mul, max_self]
      exact ih v hchain.2

lemma report_total_return_pct (rows : List SimRow) (init fee : ℚ) :
    (runBacktestSimulation rows init fee).total_return_pct =
      (((simulate fee init rows).balance +
        (if 0 < (simulate fee init rows).position
          then (simulate fee init rows).position * lastClose rows else 0)) / init - 1)
        * 100 := rfl

lemma report_portfolio_values (rows : List SimRow) (init fee : ℚ) :
    (runBacktestSimulation rows init fee).portfolio_values =
      portfolioValues init (simulate fee init rows).trades
        (simulate fee init rows).balance (simulate fee init rows).position rows := rfl

lemma report_max_drawdown (rows : List SimRow) (init fee : ℚ) :
    (runBacktestSimulation rows init fee).max_drawdown =
      maxDrawdown (portfolioValues init (simulate fee init rows).trades
        (simulate fee init rows).balance (simulate fee init rows).position rows) := rfl

lemma mddAux_cons_self (v : ℚ) (vs : List ℚ) : mddAux v 0 (v :: vs) = mddAux v 0 vs := by
  simp [mddAux]

lemma str_sell_eq_buy_false : (("SELL" : String) = "BUY") = False := by
  simp only [eq_iff_iff, iff_false]
  decide

lemma str_buy_eq_buy_true : (("BUY" : String) = "BUY") = True := by
  simp only [eq_iff_iff, iff_true]

lemma str_sell_eq_sell_true : (("SELL" : String) = "SELL") = True := by
  simp only [eq_iff_iff, iff_true]

lemma str_buy_eq_sell_false : (("BUY" : String) = "SELL") = False := by
  simp only [eq_iff_iff, iff_false]
  decide

/-- A four-candle daily run: BUY at candle 1 (close 100), price rises to 110 at
candle 2, SELL at candle 3 (close 110).  The simulated position at candle 2 is
LONG with 99 units and zero cash. -/
def mtmRows : List SimRow :=
  [⟨0, 100, false, false⟩, ⟨86400000, 100, true, false⟩,
   ⟨172800000, 110, false, false⟩, ⟨259200000, 110, false, true⟩]

/-- C1: the claim says every `portfolio_values[i]` equals the cash balance when
the simulated position at candle `i` is FLAT and `cash + position*close[i]`
when it is LONG.  On `mtmRows` the position at candle 2 is LONG (99 units,
cash 0), so the claimed value is `0 + 99*110 = 10890`; the code instead keeps
carrying the BUY-day snapshot 9900 because its mark-to-market override tests
the loop-final position, which is flat.  The code contradicts the intended
equity-curve semantics stated in the spec. -/
theorem portfolio_values_not_marked_to_market :
    (runBacktestSimulation mtmRows 10000 (1/1000)).portfolio_values =
      [10000, 9900, 9900, 1087911/100] ∧
    ((mtmRows.take 3).foldl (simStep (1/1000)) (initState 10000)).balance = 0 ∧
    ((mtmRows.take 3).foldl (simStep (1/1000)) (initState 10000)).position = 99 ∧
    (runBacktestSimulation mtmRows 10000 (1/1000)).portfolio_values.getD 2 0 = 9900 ∧
    (0 : ℚ) + 99 * 110 = 10890 ∧ (9900 : ℚ) ≠ 10890 := by
  refine ⟨?_, ?_, ?_, ?_, by norm_num, by norm_num⟩ <;>
    norm_num [mtmRows, runBacktestSimulation, simulate, simStep, initState,
      portfolioValues, pvAux, applyTrades, dateOf, lastClose,
      str_sell_eq_buy_false, str_buy_eq_buy_true, str_sell_eq_sell_true,
      str_buy_eq_sell_false, max_def]

/-- C2: a run with `initial_balance = 10000`, `fee_rate = 0.001` whose signal
columns fire exactly one BUY on a candle closing at 100 and, later, exactly
one SELL on a candle closing at 110 reports
`total_return_pct = ((110/100)*0.99*(1-0.001) - 1)*100` exactly. -/
theorem backtest_single_trade_return_pct (pre mid post : List SimRow) (rb rs : SimRow)
    (hq : ∀ r ∈ pre ++ mid ++ post, r.signal_buy = false ∧ r.signal_sell = false)
    (hb : rb.signal_buy = true) (hbc : rb.close = 100)
    (hs : rs.signal_sell = true) (hsc : rs.close = 110) :
    (runBacktestSimulation (pre ++ rb :: (mid ++ rs :: post)) 10000 (1/1000)).total_return_pct
      = ((110 / 100) * 0.99 * (1 - 0.001) - 1) * 100 := by
  have hpre : ∀ r ∈ pre, r.signal_buy = false ∧ r.signal_sell = false :=
    fun r hr => hq r (by simp [hr])
  have hmid : ∀ r ∈ mid, r.signal_buy = false ∧ r.signal_sell = false :=
    fun r hr => hq r (by simp [hr])
  have hpost : ∀ r ∈ post, r.signal_buy = false ∧ r.signal_sell = false :=
    fun r hr => hq r (by simp [hr])
  have hsim : simulate (1/1000) 10000 (pre ++ rb :: (mid ++ rs :: post))
      = simStep (1/1000) (simStep (1/1000) (initState 10000) rb) rs := by
    unfold simulate
    rw [List.foldl_append, foldl_no_signal _ pre _ hpre, List.foldl_cons,
      List.foldl_append, foldl_no_signal _ mid _ hmid, List.foldl_cons,
      foldl_no_signal _ post _ hpost]
  have hb1 : (simStep (1/1000) (initState 10000) rb).balance = 0 := by
    simp [simStep, initState, hb]
  have hp1 : (simStep (1/1000) (initState 10000) rb).position = 99 := by
    simp [simStep, initState, hb, hbc]
    norm_num
  have hbuyfail : ¬(rs.signal_buy = true ∧
      0 < (simStep (1/1000) (initState 10000) rb).balance) := by
    rw [hb1]; rintro ⟨_, h0⟩; exact lt_irrefl 0 h0
  have hsellok : rs.signal_sell = true ∧
      0 < (simStep (1/1000) (initState 10000) rb).position := by
    rw [hp1]; exact ⟨hs, by norm_num⟩
  have hb2 : (simStep (1/1000) (simStep (1/1000) (initState 10000) rb) rs).balance
      = 1087911/100 := by
    rw [simStep_sell_balance _ _ _ hbuyfail hsellok, hp1, hsc]
    norm_num
  have hp2 : (simStep (1/1000) (simStep (1/1000) (initState 10000) rb) rs).position
      = 0 :=
    (simStep_sell _ _ _ hbuyfail hsellok).1
  rw [report_total_return_pct, hsim, hb2, hp2]
  norm_num

/-- A concrete two-candle instance of the C2 scenario. -/
theorem backtest_single_trade_return_pct_witness :
    (runBacktestSimulation [⟨0, 100, true, false⟩, ⟨86400000, 110, false, true⟩]
        10000 (1/1000)).total_return_pct
      = ((110 / 100) * 0.99 * (1 - 0.001) - 1) * 100 := by
  have h := backtest_single_trade_return_pct [] [] [] ⟨0, 100, true, false⟩
    ⟨86400000, 110, false, true⟩ (by intro r hr; simp at hr) rfl rfl rfl rfl
  simpa using h

/-- C3: in every reachable simulation state, a BUY signal while LONG and a
SELL signal while FLAT leave the whole state (cash, position, entry price and
trade log) unchanged, the trade log alternates starting from a BUY (so every
BUY strictly precedes the next SELL), and the first recorded trade, if any,
is a BUY. -/
theorem backtest_ignores_invalid_transitions (init fee : ℚ) (s : SimState) (r : SimRow)
    (h : SimReachable init fee s) :
    (r.signal_buy = true → r.signal_sell = false → 0 < s.position → simStep fee s r = s) ∧
    (r.signal_sell = true → r.signal_buy = false → s.position = 0 → simStep fee s r = s) ∧
    (altRun true (s.trades.map Trade.type)).isSome = true ∧
    (∀ ty : String, (s.trades.map Trade.type).head? = some ty → ty = "BUY") := by
  obtain ⟨hbal, halt⟩ := simReachable_inv h
  refine ⟨?_, ?_, ?_, ?_⟩
  · intro _ hsnot hpos
    apply simStep_noop
    · rintro ⟨_, hbalpos⟩
      rw [hbal hpos] at hbalpos
      exact lt_irrefl 0 hbalpos
    · rintro ⟨hss, _⟩
      rw [hsnot] at hss
      cases hss
  · intro _ hbnot hpos0
    apply simStep_noop
    · rintro ⟨hbb, _⟩
      rw [hbnot] at hbb
      cases hbb
    · rintro ⟨_, hppos⟩
      rw [hpos0] at hppos
      exact lt_irrefl 0 hppos
  · rw [halt]; rfl
  · intro ty hty
    cases hl : s.trades.map Trade.type with
    | nil => rw [hl] at hty; cases hty
    | cons x xs =>
        rw [hl] at hty halt
        simp only [List.head?_cons, Option.some.injEq] at hty
        by_cases hx : x = "BUY"
        · rw [← hty]; exact hx
        · rw [show altRun true (x :: xs) = none by simp [altRun, hx]] at halt
          cases halt

/-- The LONG state reached after one BUY candle from a 10000 balance. -/
def longAfterBuy : SimState := simStep (1/1000) (initState 10000) ⟨0, 100, true, false⟩

/-- Witness for C3 at a concrete reachable LONG state: a further BUY signal is
a no-op and the trade log alternates. -/
theorem backtest_ignores_invalid_transitions_witness :
    0 < longAfterBuy.position ∧
    simStep (1/1000) longAfterBuy ⟨86400000, 105, true, false⟩ = longAfterBuy ∧
    (altRun true (longAfterBuy.trades.map Trade.type)).isSome = true := by
  have hre : SimReachable 10000 (1/1000) longAfterBuy :=
    SimReachable.step _ (SimReachable.base (by norm_num)) (by norm_num)
  have h := backtest_ignores_invalid_transitions 10000 (1/1000) longAfterBuy
    ⟨86400000, 105, true, false⟩ hre
  have hpos : 0 < longAfterBuy.position := by
    norm_num [longAfterBuy, simStep, initState]
  exact ⟨hpos, h.1 rfl rfl hpos, h.2.2.1⟩

/-- C8 (amended with `fee_rate ≤ 1`): on a nonempty candle series with
positive closes, positive initial balance and `fee_rate ≤ 1`, the reported
maximum drawdown lies in `[0, 100]`, and it is 0 whenever the computed
portfolio-value series is non-decreasing. -/
theorem max_drawdown_bounded (rows : List SimRow) (init fee : ℚ)
    (hne : rows ≠ []) (hc : ∀ r ∈ rows, 0 < r.close)
    (hinit : 0 < init) (hfee : fee ≤ 1) :
    0 ≤ (runBacktestSimulation rows init fee).max_drawdown ∧
    (runBacktestSimulation rows init fee).max_drawdown ≤ 100 ∧
    (List.Chain' (· ≤ ·) (runBacktestSimulation rows init fee).portfolio_values →
      (runBacktestSimulation rows init fee).max_drawdown = 0) := by
  obtain ⟨r, rs, hrr⟩ := List.exists_cons_of_ne_nil hne
  subst hrr
  obtain ⟨hSb, hSp, hSt⟩ :
      GoodState (simulate fee init (r :: rs)) :=
    goodState_foldl fee hfee (r :: rs) _ (goodState_init hinit.le) hc
  have hpv : portfolioValues init (simulate fee init (r :: rs)).trades
      (simulate fee init (r :: rs)).balance (simulate fee init (r :: rs)).position
      (r :: rs)
      = (if 0 < (simulate fee init (r :: rs)).position
          then (simulate fee init (r :: rs)).balance +
            (simulate fee init (r :: rs)).position * r.close else init)
        :: pvAux (simulate fee init (r :: rs)).trades
            (simulate fee init (r :: rs)).balance
            (simulate fee init (r :: rs)).position
            (if 0 < (simulate fee init (r :: rs)).position
              then (simulate fee init (r :: rs)).balance +
                (simulate fee init (r :: rs)).position * r.close else init) rs := rfl
  have hv0 : 0 < (if 0 < (simulate fee init (r :: rs)).position
      then (simulate fee init (r :: rs)).balance +
        (simulate fee init (r :: rs)).position * r.close else init) := by
    split
    · next hpos => exact add_pos_of_nonneg_of_pos hSb (mul_pos hpos (hc r (by simp)))
    · exact hinit
  have hrest : ∀ v ∈ pvAux (simulate fee init (r :: rs)).trades
      (simulate fee init (r :: rs)).balance (simulate fee init (r :: rs)).position
      (if 0 < (simulate fee init (r :: rs)).position
        then (simulate fee init (r :: rs)).balance +
          (simulate fee init (r :: rs)).position * r.close else init) rs, 0 ≤ v :=
    pvAux_nonneg _ _ _ hSb hSt rs _ hv0.le (fun x hx => hc x (by simp [hx]))
  have hmdd : (runBacktestSimulation (r :: rs) init fee).max_drawdown
      = mddAux (if 0 < (simulate fee init (r :: rs)).position
          then (simulate fee init (r :: rs)).balance +
            (simulate fee init (r :: rs)).position * r.close else init) 0
        (pvAux (simulate fee init (r :: rs)).trades
          (simulate fee init (r :: rs)).balance
          (simulate fee init (r :: rs)).position
          (if 0 < (simulate fee init (r :: rs)).position
            then (simulate fee init (r :: rs)).balance +
              (simulate fee init (r :: rs)).position * r.close else init) rs) := by
    rw [report_max_drawdown, hpv, maxDrawdown, mddAux_cons_self]
  have hbounds := mddAux_bounds _ _ 0 hv0 le_rfl (by norm_num) hrest
  refine ⟨hmdd ▸ hbounds.1, hmdd ▸ hbounds.2, ?_⟩
  intro hch
  rw [report_portfolio_values, hpv] at hch
  rw [report_max_drawdown, hpv, maxDrawdown]
  apply mddAux_zero_of_chain
  rw [List.chain'_cons]
  exact ⟨le_rfl, hch⟩

/-- Witness for C8 on a concrete signal-free two-candle run. -/
theorem max_drawdown_bounded_witness :
    0 ≤ (runBacktestSimulation [⟨0, 100, false, false⟩, ⟨86400000, 105, false, false⟩]
        10000 (1/1000)).max_drawdown ∧
    (runBacktestSimulation [⟨0, 100, false, false⟩, ⟨86400000, 105, false, false⟩]
        10000 (1/1000)).max_drawdown ≤ 100 := by
  have h := max_drawdown_bounded
    [⟨0, 100, false, false⟩, ⟨86400000, 105, false, false⟩] 10000 (1/1000)
    (by simp) (by intro r hr; fin_cases hr <;> norm_num) (by norm_num) (by norm_num)
  exact ⟨h.1, h.2.1⟩

/-- A two-candle run that buys at candle 0 and sells at candle 1. -/
def feeTwoRows : List SimRow :=
  [⟨0, 100, true, false⟩, ⟨86400000, 100, false, true⟩]

/-- C8 as stated is false: with `fee_rate = 2` (the claim does not constrain
the fee rate), positive closes and `initial_balance = 10000 > 0`, the sell
leaves a negative cash balance and the reported max drawdown is 199 > 100. -/
theorem max_drawdown_above_100 :
    (∀ r ∈ feeTwoRows, 0 < r.close) ∧ (0 : ℚ) < 10000 ∧
    (runBacktestSimulation feeTwoRows 10000 2).max_drawdown = 199 ∧
    ¬((runBacktestSimulation feeTwoRows 10000 2).max_drawdown ≤ 100) := by
  have hdd : (runBacktestSimulation feeTwoRows 10000 2).max_drawdown = 199 := by
    norm_num [feeTwoRows, runBacktestSimulation, simulate, simStep, initState,
      portfolioValues, pvAux, applyTrades, dateOf, lastClose, maxDrawdown, mddAux,
      str_sell_eq_buy_false, str_buy_eq_buy_true, str_sell_eq_sell_true,
      str_buy_eq_sell_false, max_def]
  refine ⟨?_, by norm_num, hdd, by rw [hdd]; norm_num⟩
  intro r hr
  fin_cases hr <;> norm_num

/-- C7: with `upper_price = 110`, `lower_price = 90`, `grid_num = 2` the grid
levels are exactly `[90, 100, 110]`; if the close series crosses 100 upward
between candles `k-1` and `k` and crosses no level at any other candle, then
`signal_buy` is true exactly at candle `k` (and candle 0 is never a crossing
candle). -/
theorem grid_buy_on_upward_crossing (closes : List ℚ) (k : ℕ)
    (hk1 : 1 ≤ k) (hk2 : k < closes.length)
    (hprev : closes.getD (k - 1) 0 < 100) (hcurr : 100 ≤ closes.getD k 0)
    (hno : ∀ i, 1 ≤ i → i < closes.length → i ≠ k →
      ∀ l ∈ gridLevels 110 90 2, ¬(closes.getD (i - 1) 0 < l ∧ l ≤ closes.getD i 0)) :
    gridLevels 110 90 2 = [90, 100, 110] ∧
    (gridBuySignals (gridLevels 110 90 2) closes).getD k false = true ∧
    (∀ i, i < closes.length → i ≠ k →
      (gridBuySignals (gridLevels 110 90 2) closes).getD i false = false) := by
  have hlv : gridLevels 110 90 2 = [90, 100, 110] := by
    norm_num [gridLevels, List.range_succ]
  refine ⟨hlv, ?_, ?_⟩
  · rw [gridBuySignals_getD _ closes k hk1 hk2, hlv]
    simp only [List.any_eq_true]
    refine ⟨100, by simp, ?_⟩
    simp only [crossUp, Bool.and_eq_true, decide_eq_true_eq]
    exact ⟨hprev, hcurr⟩
  · intro i hi hik
    rcases Nat.eq_zero_or_pos i with h0 | h1
    · subst h0; exact gridBuySignals_getD_zero _ _
    · rw [gridBuySignals_getD _ closes i h1 hi]
      simp only [List.any_eq_false]
      intro l hl
      have := hno i h1 hi hik l hl
      simp only [crossUp, Bool.and_eq_true, decide_eq_true_eq]
      tauto

/-- Witness for C7: closes `[95, 105]` cross 100 upward at candle 1. -/
theorem grid_buy_on_upward_crossing_witness :
    (gridBuySignals (gridLevels 110 90 2) [95, 105]).getD 1 false = true ∧
    (gridBuySignals (gridLevels 110 90 2) [95, 105]).getD 0 false = false := by
  have h := grid_buy_on_upward_crossing [95, 105] 1 (by norm_num) (by norm_num)
    (by norm_num) (by norm_num)
    (by intro i h1 h2 h3; simp at h2; omega)
  exact ⟨h.2.1, h.2.2 0 (by norm_num) (by norm_num)⟩

end Backtest

namespace Strategies

/-- One structured candle as the three strategies consume it.  (`open` is a
Lean keyword, the column is called `open_price` here; the timestamp columns
are never read by the strategies and are omitted.) -/
structure Kline where
  open_price : ℚ
  high : ℚ
  low : ℚ
  close : ℚ
  volume : ℚ
  deriving Repr, DecidableEq

/-- The signal dictionary a strategy returns.  Missing dictionary keys are
`none` / `[]`. -/
structure Signal where
  action : String
  reason : String
  price : Option ℚ
  target_price : Option ℚ
  position_size : Option ℚ
  stop_loss : Option ℚ
  take_profit : Option ℚ
  indicators : List (String × ℚ)
  deriving Repr, DecidableEq

/-- `{"action": "hold", "reason": "数据不足"}` (insufficient data). -/
def holdInsufficient : Signal :=
  ⟨"hold", "数据不足", none, none, none, none, none, []⟩

/-- `{"action": "hold", "reason": f"错误: {e}"}` returned by every strategy's
`except` clause. -/
def holdErr (e : String) : Signal :=
  ⟨"hold", "错误: " ++ e, none, none, none, none, none, []⟩

/-- A raw kline cell: either a value `float()`/`pd.to_numeric` accepts
(number or numeric string) or one it rejects. -/
inductive PyVal where
  | num (q : ℚ)
  | str (s : String)
  deriving Repr, DecidableEq

/-- `float(x)`: raises on a non-numeric string. -/
def pyFloat : PyVal → Except String ℚ
  | .num q => .ok q
  | .str s => .error ("could not convert string to float: " ++ s)

/-- `kline[i]`: raises `IndexError` past the end. -/
def pyIndex (l : List PyVal) (i : ℕ) : Except String PyVal :=
  match l.get? i with
  | some v => .ok v
  | none => .error "list index out of range"

/-- Comparison under the pandas/NumPy rule that any comparison against `NaN`
(modelled `none`) is `False`. -/
def oLtB : Option ℚ → Option ℚ → Bool
  | some a, some b => decide (a < b)
  | _, _ => false

/-- `<=` with the same `NaN` rule. -/
def oLeB : Option ℚ → Option ℚ → Bool
  | some a, some b => decide (a ≤ b)
  | _, _ => false

/-- `Series.rolling(window=w).mean()` at row `i`: undefined for the first
`w - 1` rows.  `w = 0` is rejected by pandas before any cell is computed; the
callers below guard it separately, so that branch is never consulted. -/
def rollingMeanAt (w : ℕ) (xs : List ℚ) (i : ℕ) : Option ℚ :=
  if w = 0 ∨ i + 1 < w then none
  else some (((xs.drop (i + 1 - w)).take w).sum / (w : ℚ))

/-- Exact square root on perfect-square rationals (and 0 elsewhere).  Every
theorem below reads the rolling std either not at all (the insufficient-data
branch returns before any comparison) or at a perfect-square variance, where
this agrees exactly with the float `sqrt` of the source. -/
def ratSqrt (q : ℚ) : ℚ :=
  let n := q.num.natAbs.sqrt
  let d := q.den.sqrt
  if 0 ≤ q.num ∧ n * n = q.num.natAbs ∧ d * d = q.den then (n : ℚ) / (d : ℚ) else 0

/-- Rolling sample variance (`ddof = 1`, the pandas default): undefined for
the first `w - 1` rows and for window 1 (zero denominator gives `NaN`). -/
def sampleVarAt (w : ℕ) (xs : List ℚ) (i : ℕ) : Option ℚ :=
  if w = 0 ∨ i + 1 < w ∨ w = 1 then none
  else
    let win := (xs.drop (i + 1 - w)).take w
    let m := win.sum / (w : ℚ)
    some ((win.map (fun x => (x - m) ^ 2)).sum / ((w : ℚ) - 1))

/-- `Series.rolling(window=w).std()`. -/
def rollingStdAt (w : ℕ) (xs : List ℚ) (i : ℕ) : Option ℚ :=
  (sampleVarAt w xs i).map ratSqrt

/-- `Series.diff()` at row `i` (`NaN` at row 0). -/
def deltaAt (closes : List ℚ) (i : ℕ) : Option ℚ :=
  if i = 0 then none else some (closes.getD i 0 - closes.getD (i - 1) 0)

/-- `delta.where(delta > 0, 0)`: the `NaN` at row 0 fails the condition and is
replaced by 0. -/
def gainCell (closes : List ℚ) (i : ℕ) : ℚ :=
  match deltaAt closes i with
  | some d => if 0 < d then d else 0
  | none => 0

/-- `-delta.where(delta < 0, 0)`. -/
def lossCell (closes : List ℚ) (i : ℕ) : ℚ :=
  match deltaAt closes i with
  | some d => if d < 0 then -d else 0
  | none => 0

def gainList (closes : List ℚ) : List ℚ :=
  (List.range closes.length).map (gainCell closes)

def lossList (closes : List ℚ) : List ℚ :=
  (List.range closes.length).map (lossCell closes)

/-- `rsi = 100 - 100/(1 + avg_gain/avg_loss)` with float semantics at
`avg_loss = 0`: positive gain gives `rs = inf` hence `rsi = 100`, and `0/0`
gives `NaN`. -/
def rsiAt (w : ℕ) (closes : List ℚ) (i : ℕ) : Option ℚ :=
  match rollingMeanAt w (gainList closes) i, rollingMeanAt w (lossList closes) i with
  | some g, some l =>
      if l = 0 then (if g = 0 then none else some 100)
      else some (100 - 100 / (1 + g / l))
  | _, _ => none

/-- `TrendFollowingStrategy(period, multiplier)`. -/
structure TrendParams where
  period : ℕ
  multiplier : ℚ
  deriving Repr, DecidableEq

/-- `tr = max(tr0, tr1, tr2)` per row; pandas `max(axis=1)` skips the `NaN`
that `shift()` puts into `tr1`/`tr2` at row 0, leaving `tr0 = |high - low|`. -/
def trCell (highs lows closes : List ℚ) (i : ℕ) : ℚ :=
  let tr0 := |highs.getD i 0 - lows.getD i 0|
  if i = 0 then tr0
  else max tr0 (max |highs.getD i 0 - closes.getD (i - 1) 0|
    |lows.getD i 0 - closes.getD (i - 1) 0|)

def trListOf (highs lows closes : List ℚ) : List ℚ :=
  (List.range closes.length).map (trCell highs lows closes)

/-- `df['atr'] = df['tr'].rolling(window=period).mean()`. -/
def atrAt (p : ℕ) (highs lows closes : List ℚ) (i : ℕ) : Option ℚ :=
  rollingMeanAt p (trListOf highs lows closes) i

/-- `df['momentum'] = df['close'] - df['close'].shift(period)`. -/
def momentumAt (p : ℕ) (closes : List ℚ) (i : ℕ) : Option ℚ :=
  if i < p then none else some (closes.getD i 0 - closes.getD (i - p) 0)

/-- `TrendFollowingStrategy.generate_signals`: guard `len(df) < period`, then
read `iloc[-1]`/`iloc[-2]` (`iloc[-2]` raises on a single row) and compare the
crossing and momentum cells under `NaN` semantics. -/
def trendSignalsCore (p : TrendParams) (ks : List Kline) : Except String Signal :=
  let closes := ks.map Kline.close
  let highs := ks.map Kline.high
  let lows := ks.map Kline.low
  let n := ks.length
  if n < p.period then .ok holdInsufficient
  else if n < 2 then .error "single positional indexer is out-of-bounds"
  else
    let cur := n - 1
    let prev := n - 2
    let maS := rollingMeanAt (p.period / 2) closes
    let maL := rollingMeanAt p.period closes
    let mom := momentumAt p.period closes
    let atr := atrAt p.period highs lows closes
    let c := closes.getD cur 0
    if oLtB (maL cur) (maS cur) && oLeB (maS prev) (maL prev) &&
        oLtB (some 0) (mom cur) then
      .ok ⟨"buy", "均线交叉且动量为正", some c, none, none,
        some (c - (atr cur).getD 0 * p.multiplier),
        some (c + (atr cur).getD 0 * p.multiplier), []⟩
    else if oLtB (maS cur) (maL cur) && oLeB (maL prev) (maS prev) &&
        oLtB (mom cur) (some 0) then
      .ok ⟨"sell", "均线交叉且动量为负", some c, none, none,
        some (c + (atr cur).getD 0 * p.multiplier),
        some (c - (atr cur).getD 0 * p.multiplier), []⟩
    else .ok ⟨"hold", "无明确信号", none, none, none, none, none, []⟩

/-- `TrendFollowingStrategy.calculate_indicators` then `generate_signals`:
`rolling(window=period//2)` rejects a zero window before anything else. -/
def trendEvaluateCoreK (p : TrendParams) (ks : List Kline) : Except String Signal :=
  if p.period / 2 = 0 then .error "window must be an integer greater than 0"
  else trendSignalsCore p ks

/-- `TrendFollowingStrategy.evaluate` on parsed candles: the `except` clause
converts any raised error into a hold signal. -/
def trendEvaluateK (p : TrendParams) (ks : List Kline) : Signal :=
  match trendEvaluateCoreK p ks with
  | .ok s => s
  | .error e => holdErr e

/-- `MeanReversionStrategy(period, std_dev_multiplier)`. -/
structure MeanRevParams where
  period : ℕ
  std_dev_multiplier : ℚ
  deriving Repr, DecidableEq

def maAt (w : ℕ) (closes : List ℚ) (i : ℕ) : Option ℚ :=
  rollingMeanAt w closes i

/-- `upper_band = ma + std * std_dev_multiplier`. -/
def upperBandAt (p : MeanRevParams) (closes : List ℚ) (i : ℕ) : Option ℚ :=
  match maAt p.period closes i, rollingStdAt p.period closes i with
  | some m, some s => some (m + s * p.std_dev_multiplier)
  | _, _ => none

/-- `lower_band = ma - std * std_dev_multiplier`. -/
def lowerBandAt (p : MeanRevParams) (closes : List ℚ) (i : ℕ) : Option ℚ :=
  match maAt p.period closes i, rollingStdAt p.period closes i with
  | some m, some s => some (m - s * p.std_dev_multiplier)
  | _, _ => none

/-- `MeanReversionStrategy.generate_signals`: guard `len(df) < period`, then
band/RSI threshold checks on the last row (`iloc[-1]` raises on an empty
frame). -/
def meanRevSignalsCore (p : MeanRevParams) (ks : List Kline) : Except String Signal :=
  let closes := ks.map Kline.close
  let n := ks.length
  if n < p.period then .ok holdInsufficient
  else if n = 0 then .error "single positional indexer is out-of-bounds"
  else
    let cur := n - 1
    let c := closes.getD cur 0
    if oLtB (some c) (lowerBandAt p closes cur) &&
        oLtB (rsiAt p.period closes cur) (some 30) then
      .ok ⟨"buy", "价格低于下轨且RSI超卖", some c,
        some ((maAt p.period closes cur).getD 0), none, none, none, []⟩
    else if oLtB (upperBandAt p closes cur) (some c) &&
        oLtB (some 70) (rsiAt p.period closes cur) then
      .ok ⟨"sell", "价格高于上轨且RSI超买", some c,
        some ((maAt p.period closes cur).getD 0), none, none, none, []⟩
    else .ok ⟨"hold", "无明确信号", none, none, none, none, none, []⟩

/-- `MeanReversionStrategy.calculate_indicators` then `generate_signals`
(`rolling(window=0)` is rejected first). -/
def meanRevEvaluateCoreK (p : MeanRevParams) (ks : List Kline) : Except String Signal :=
  if p.period = 0 then .error "window must be an integer greater than 0"
  else meanRevSignalsCore p ks

/-- `MeanReversionStrategy.evaluate` on parsed candles. -/
def meanRevEvaluateK (p : MeanRevParams) (ks : List Kline) : Signal :=
  match meanRevEvaluateCoreK p ks with
  | .ok s => s
  | .error e => holdErr e

/-- `TurtleTradingStrategy(entry_period, exit_period, atr_period)`. -/
structure TurtleParams where
  entry_period : ℕ
  exit_period : ℕ
  atr_period : ℕ
  deriving Repr, DecidableEq

/-- The Python slice `xs[-n:]` (for `n = 0` it is the whole list). -/
def pyTail (n : ℕ) (xs : List ℚ) : List ℚ :=
  if n = 0 then xs else xs.drop (xs.length - n)

/-- `max` of a Python list (`None` stands for the unreachable empty case,
where Python would raise). -/
def pyMax : List ℚ → Option ℚ
  | [] => none
  | x :: xs => some (xs.foldl max x)

/-- `min` of a Python list. -/
def pyMin : List ℚ → Option ℚ
  | [] => none
  | x :: xs => some (xs.foldl min x)

/-- `TurtleTradingStrategy._calculate_donchian_channels`: rolling max of highs
and min of lows over the trailing `period` elements — the window includes the
current candle. -/
def donchianChannels (highs lows : List ℚ) (period : ℕ) : Option ℚ × Option ℚ :=
  (if period ≤ highs.length then pyMax (pyTail period highs) else none,
   if period ≤ lows.length then pyMin (pyTail period lows) else none)

/-- `TurtleTradingStrategy._calculate_atr`. -/
def turtleATR (highs lows closes : List ℚ) (period : ℕ) : ℚ :=
  if closes.length < period + 1 then 0
  else if period = 0 then 0
  else
    let n := closes.length
    let trs := (List.range period).map (fun j =>
      let i := n - period + j
      let prev_close := if 0 < i then closes.getD (i - 1) 0 else closes.getD i 0
      max (highs.getD i 0 - lows.getD i 0)
        (max |highs.getD i 0 - prev_close| |lows.getD i 0 - prev_close|))
    trs.sum / (period : ℚ)

/-- Python `round(x, 3)` (round half to even). -/
def pyRound3 (q : ℚ) : ℚ :=
  let y := q * 1000
  let f := ⌊y⌋
  let r := y - (f : ℚ)
  let n := if r < 1/2 then f
    else if 1/2 < r then f + 1
    else if f % 2 = 0 then f else f + 1
  (n : ℚ) / 1000

/-- `TurtleTradingStrategy.evaluate` decision logic on the extracted price
columns (total: no exception can occur past the float conversions). -/
def turtleSignal (p : TurtleParams) (highs lows closes : List ℚ) : Signal :=
  let required := max p.entry_period (max p.exit_period p.atr_period) + 1
  if closes.length < required then holdInsufficient
  else
    let current_price := (closes.getLast?).getD 0
    let entry := donchianChannels highs lows p.entry_period
    let atr := turtleATR highs lows closes p.atr_period
    let prev_entry :=
      if p.entry_period + 1 ≤ highs.length then
        donchianChannels highs.dropLast lows.dropLast p.entry_period
      else (none, none)
    let long_signal := oLtB entry.1 (some current_price) &&
      oLtB prev_entry.1 (some current_price)
    let short_signal := oLtB (some current_price) entry.2 &&
      oLtB (some current_price) prev_entry.2
    let position_size := if 0 < atr then pyRound3 (10000 * 0.01 / atr) else 0
    if long_signal then
      ⟨"buy", "突破唐奇安通道上轨 - 多头信号", some current_price, none,
        some position_size, some (current_price - 2 * atr),
        some (current_price + 2 * atr),
        [("entry_upper", entry.1.getD 0), ("atr", atr)]⟩
    else if short_signal then
      ⟨"sell", "跌破唐奇安通道下轨 - 空头信号", some current_price, none,
        some position_size, some (current_price + 2 * atr),
        some (current_price - 2 * atr),
        [("entry_lower", entry.2.getD 0), ("atr", atr)]⟩
    else ⟨"hold", "无明显突破信号", none, none, none, none, none, []⟩

/-- `TurtleTradingStrategy.evaluate` on parsed candles. -/
def turtleEvaluateK (p : TurtleParams) (ks : List Kline) : Signal :=
  turtleSignal p (ks.map Kline.high) (ks.map Kline.low) (ks.map Kline.close)

/-- One price column as the turtle strategy extracts it:
`[float(kline[idx]) for kline in klines]`. -/
def columnFloats (idx : ℕ) (raw : List (List PyVal)) : Except String (List ℚ) :=
  raw.mapM (fun k => pyIndex k idx >>= pyFloat)

/-- The fallible body of `TurtleTradingStrategy.evaluate`: extract highs, lows
and closes (each comprehension can raise), then decide. -/
def turtleEvaluateCore (p : TurtleParams) (raw : List (List PyVal)) :
    Except String Signal := do
  let highs ← columnFloats 2 raw
  let lows ← columnFloats 3 raw
  let closes ← columnFloats 4 raw
  pure (turtleSignal p highs lows closes)

/-- `TurtleTradingStrategy.evaluate` on raw klines, `except` clause included. -/
def turtleEvaluate (p : TurtleParams) (raw : List (List PyVal)) : Signal :=
  match turtleEvaluateCore p raw with
  | .ok s => s
  | .error e => holdErr e

/-- `pd.DataFrame(klines, columns=[...12 names...])` followed by
`pd.to_numeric` on the five price/volume columns: rows of the wrong width are
rejected by the constructor, non-numeric cells by the conversion.  (The source
converts column by column; which of several malformed cells is reported first
is abstracted.) -/
def dfParseKlines (raw : List (List PyVal)) : Except String (List Kline) :=
  if raw.all (fun r => r.length = 12) then
    raw.mapM (fun r => do
      let o ← pyFloat (r.getD 1 (.num 0))
      let h ← pyFloat (r.getD 2 (.num 0))
      let l ← pyFloat (r.getD 3 (.num 0))
      let c ← pyFloat (r.getD 4 (.num 0))
      let v ← pyFloat (r.getD 5 (.num 0))
      pure (⟨o, h, l, c, v⟩ : Kline))
  else .error "12 columns passed, passed data had a different width"

/-- The fallible body of `TrendFollowingStrategy.evaluate` on raw klines. -/
def trendEvaluateCore (p : TrendParams) (raw : List (List PyVal)) :
    Except String Signal :=
  dfParseKlines raw >>= trendEvaluateCoreK p

/-- `TrendFollowingStrategy.evaluate` on raw klines, `except` clause included. -/
def trendEvaluate (p : TrendParams) (raw : List (List PyVal)) : Signal :=
  match trendEvaluateCore p raw with
  | .ok s => s
  | .error e => holdErr e

/-- The fallible body of `MeanReversionStrategy.evaluate` on raw klines. -/
def meanRevEvaluateCore (p : MeanRevParams) (raw : List (List PyVal)) :
    Except String Signal :=
  dfParseKlines raw >>= meanRevEvaluateCoreK p

/-- `MeanReversionStrategy.evaluate` on raw klines, `except` clause included. -/
def meanRevEvaluate (p : MeanRevParams) (raw : List (List PyVal)) : Signal :=
  match meanRevEvaluateCore p raw with
  | .ok s => s
  | .error e => holdErr e

lemma le_foldl_max : ∀ (l : List ℚ) (b : ℚ), b ≤ l.foldl max b
  | [], _ => le_refl _
  | x :: xs, b => le_trans (le_max_left b x) (le_foldl_max xs (max b x))

lemma mem_le_foldl_max : ∀ (l : List ℚ) (b x : ℚ), x ∈ l → x ≤ l.foldl max b := by
  intro l
  induction l with
  | nil => intro b x hx; simp at hx
  | cons y ys ih =>
      intro b x hx
      rcases List.mem_cons.mp hx with h | h
      · subst h
        exact le_trans (le_max_right b x) (le_foldl_max ys (max b x))
      · exact ih (max b y) x h

lemma pyMax_le {xs : List ℚ} {m x : ℚ} (hm : pyMax xs = some m) (hx : x ∈ xs) :
    x ≤ m := by
  cases xs with
  | nil => simp at hx
  | cons y ys =>
      simp only [pyMax, Option.some.injEq] at hm
      subst hm
      rcases List.mem_cons.mp hx with h | h
      · subst h; exact le_foldl_max ys x
      · exact mem_le_foldl_max ys y x h

lemma foldl_min_le : ∀ (l : List ℚ) (b : ℚ), l.foldl min b ≤ b
  | [], _ => le_refl _
  | x :: xs, b => le_trans (foldl_min_le xs (min b x)) (min_le_left b x)

lemma foldl_min_le_mem : ∀ (l : List ℚ) (b x : ℚ), x ∈ l → l.foldl min b ≤ x := by
  intro l
  induction l with
  | nil => intro b x hx; simp at hx
  | cons y ys ih =>
      intro b x hx
      rcases List.mem_cons.mp hx with h | h
      · subst h
        exact le_trans (foldl_min_le ys (min b x)) (min_le_right b x)
      · exact ih (min b y) x h

lemma le_pyMin {xs : List ℚ} {m x : ℚ} (hm : pyMin xs = some m) (hx : x ∈ xs) :
    m ≤ x := by
  cases xs with
  | nil => simp at hx
  | cons y ys =>
      simp only [pyMin, Option.some.injEq] at hm
      subst hm
      rcases List.mem_cons.mp hx with h | h
      · subst h; exact foldl_min_le ys x
      · exact foldl_min_le_mem ys y x h

lemma getLast?_pyTail (n : ℕ) (xs : List ℚ) (h : xs ≠ []) :
    (pyTail n xs).getLast? = xs.getLast? := by
  unfold pyTail
  split
  · rfl
  · rw [List.getLast?_drop]
    have hlen : 0 < xs.length := List.length_pos.mpr h
    next hn =>
      rw [if_neg]
      omega

/-- The last element of a nonempty list belongs to every Python tail slice
`xs[-n:]` of it. -/
lemma getLast_mem_pyTail (n : ℕ) (xs : List ℚ) {a : ℚ} (h : xs.getLast? = some a) :
    a ∈ pyTail n xs := by
  have hne : xs ≠ [] := by
    intro hnil; rw [hnil] at h; simp at h
  have := getLast?_pyTail n xs hne
  exact List.mem_of_mem_getLast? (by rw [this, h]; rfl)

/-- If both breakout booleans are false the turtle decision is a hold (either
the insufficient-data hold or the no-breakout hold). -/
lemma turtleSignal_hold (p : TurtleParams) (highs lows closes : List ℚ)
    (h1 : oLtB (donchianChannels highs lows p.entry_period).1
      (some ((closes.getLast?).getD 0)) = false)
    (h2 : oLtB (some ((closes.getLast?).getD 0))
      (donchianChannels highs lows p.entry_period).2 = false) :
    (turtleSignal p highs lows closes).action = "hold" := by
  unfold turtleSignal
  by_cases hlen : closes.length <
      max p.entry_period (max p.exit_period p.atr_period) + 1
  · simp [hlen, holdInsufficient]
  · simp [hlen, h1, h2]

/-- C5: on well-formed candles (`low ≤ close ≤ high` per candle) the turtle
strategy always holds: its entry Donchian channel includes the current candle,
so the close can never be strictly outside it. -/
theorem turtle_always_holds (p : TurtleParams) (ks : List Kline)
    (hwf : ∀ k ∈ ks, k.low ≤ k.close ∧ k.close ≤ k.high) :
    (turtleEvaluateK p ks).action = "hold" := by
  unfold turtleEvaluateK
  cases hks : ks.getLast? with
  | none =>
      -- empty series: insufficient data
      have : ks = [] := by
        cases ks with
        | nil => rfl
        | cons a l => simp [List.getLast?_concat, List.getLast?] at hks
      subst this
      apply turtleSignal_hold <;> simp [donchianChannels, pyTail, pyMax, pyMin, oLtB]
  | some klast =>
      have hmem : klast ∈ ks := List.mem_of_mem_getLast? (by rw [hks]; rfl)
      have hwfk := hwf klast hmem
      have hcl : (ks.map Kline.close).getLast? = some klast.close := by
        rw [List.getLast?_map, hks]; rfl
      have hcur : ((ks.map Kline.close).getLast?).getD 0 = klast.close := by
        rw [hcl]; rfl
      apply turtleSignal_hold
      · -- close ≤ high ≤ entry upper channel
        rw [hcur]
        rw [show (donchianChannels (ks.map Kline.high) (ks.map Kline.low)
            p.entry_period).1
          = if p.entry_period ≤ (ks.map Kline.high).length
            then pyMax (pyTail p.entry_period (ks.map Kline.high)) else none from rfl]
        by_cases hle : p.entry_period ≤ (ks.map Kline.high).length
        · rw [if_pos hle]
          cases hu : pyMax (pyTail p.entry_period (ks.map Kline.high)) with
          | none => simp [oLtB]
          | some u =>
              have hh : (ks.map Kline.high).getLast? = some klast.high := by
                rw [List.getLast?_map, hks]; rfl
              have hhu : klast.high ≤ u :=
                pyMax_le hu (getLast_mem_pyTail p.entry_period _ hh)
              have hfin : ¬ (u < klast.close) :=
                not_lt.mpr (le_trans hwfk.2 hhu)
              simp [oLtB, hfin]
        · rw [if_neg hle]
          simp [oLtB]
      · -- entry lower channel ≤ low ≤ close
        rw [hcur]
        rw [show (donchianChannels (ks.map Kline.high) (ks.map Kline.low)
            p.entry_period).2
          = if p.entry_period ≤ (ks.map Kline.low).length
            then pyMin (pyTail p.entry_period (ks.map Kline.low)) else none from rfl]
        by_cases hle : p.entry_period ≤ (ks.map Kline.low).length
        · rw [if_pos hle]
          cases hu : pyMin (pyTail p.entry_period (ks.map Kline.low)) with
          | none => simp [oLtB]
          | some m =>
              have hh : (ks.map Kline.low).getLast? = some klast.low := by
                rw [List.getLast?_map, hks]; rfl
              have hml : m ≤ klast.low :=
                le_pyMin hu (getLast_mem_pyTail p.entry_period _ hh)
              have hfin : ¬ (klast.close < m) :=
                not_lt.mpr (le_trans hml hwfk.1)
              simp [oLtB, hfin]
        · rw [if_neg hle]
          simp [oLtB]

/-- Witness for C5 on two concrete well-formed candles past the
insufficient-data bar (`entry = exit = atr = 1`, required length 2). -/
theorem turtle_always_holds_witness :
    (turtleEvaluateK ⟨1, 1, 1⟩ [⟨7, 10, 5, 7, 1⟩, ⟨11, 12, 6, 11, 1⟩]).action
      = "hold" := by
  apply turtle_always_holds
  intro k hk
  fin_cases hk <;> norm_num

/-- C4 (amended): the `数据不足` guard of TrendFollowing and MeanReversion
fires only below `period` candles (not `max(relevant periods)+1`), the turtle
guard below `max(entry, exit, atr)+1` candles; the window-validity bounds
(`period ≥ 2` resp. `≥ 1`) keep pandas from rejecting the rolling window
before the guard is reached. -/
theorem insufficient_data_guards :
    (∀ (p : TrendParams) (ks : List Kline), 2 ≤ p.period → ks.length < p.period →
      trendEvaluateK p ks = holdInsufficient) ∧
    (∀ (p : MeanRevParams) (ks : List Kline), 1 ≤ p.period → ks.length < p.period →
      meanRevEvaluateK p ks = holdInsufficient) ∧
    (∀ (p : TurtleParams) (ks : List Kline),
      ks.length < max p.entry_period (max p.exit_period p.atr_period) + 1 →
      turtleEvaluateK p ks = holdInsufficient) := by
  refine ⟨?_, ?_, ?_⟩
  · intro p ks hp hlen
    have hw : ¬ p.period / 2 = 0 := by omega
    simp [trendEvaluateK, trendEvaluateCoreK, trendSignalsCore, hw, hlen]
  · intro p ks hp hlen
    have hw : ¬ p.period = 0 := by omega
    simp [meanRevEvaluateK, meanRevEvaluateCoreK, meanRevSignalsCore, hw, hlen]
  · intro p ks hlen
    have : (ks.map Kline.close).length <
        max p.entry_period (max p.exit_period p.atr_period) + 1 := by
      simpa using hlen
    simp [turtleEvaluateK, turtleSignal, this]
    intro h
    exact absurd hlen (not_lt.mpr h)

/-- Witness for C4 at empty candle lists and the default parameters. -/
theorem insufficient_data_guards_witness :
    trendEvaluateK ⟨14, 2⟩ [] = holdInsufficient ∧
    meanRevEvaluateK ⟨20, 2⟩ [] = holdInsufficient ∧
    turtleEvaluateK ⟨20, 10, 20⟩ [] = holdInsufficient := by
  refine ⟨insufficient_data_guards.1 ⟨14, 2⟩ [] (by norm_num) (by simp),
    insufficient_data_guards.2.1 ⟨20, 2⟩ [] (by norm_num) (by simp),
    insufficient_data_guards.2.2 ⟨20, 10, 20⟩ [] (by simp)⟩

/-- Three flat-price candles closing 103, 105, 92. -/
def mrKs : List Kline :=
  [⟨103, 103, 103, 103, 1⟩, ⟨105, 105, 105, 105, 1⟩, ⟨92, 92, 92, 92, 1⟩]

/-- C4 as stated is false for MeanReversion: with `period = 3`,
`std_dev_multiplier = 1` and only 3 candles — fewer than
`max(relevant periods)+1 = 4` — evaluate returns a BUY (ma = 100, sample std
= 7, lower band 93 > close 92, RSI = 40/3 < 30), not the claimed
insufficient-data hold. -/
theorem insufficient_data_counterexample :
    mrKs.length < 3 + 1 ∧
    meanRevEvaluateK ⟨3, 1⟩ mrKs =
      ⟨"buy", "价格低于下轨且RSI超卖", some 92, some 100, none, none, none, []⟩ ∧
    (meanRevEvaluateK ⟨3, 1⟩ mrKs).action ≠ "hold" := by
  have h : meanRevEvaluateK ⟨3, 1⟩ mrKs =
      ⟨"buy", "价格低于下轨且RSI超卖", some 92, some 100, none, none, none, []⟩ := by
    norm_num [meanRevEvaluateK, meanRevEvaluateCoreK, meanRevSignalsCore, mrKs,
      lowerBandAt, upperBandAt, maAt, rollingMeanAt, rollingStdAt, sampleVarAt,
      ratSqrt, rsiAt, gainList, lossList, gainCell, lossCell, deltaAt, oLtB,
      List.range_succ, Int.natAbs_ofNat, show Nat.sqrt 49 = 7 from by norm_num]
  refine ⟨by simp [mrKs], h, by rw [h]; decide⟩

/-- C10: for each of the three strategies, whenever the fallible evaluation
body raises (`Except.error`), `evaluate` returns the hold signal carrying the
error text — it never propagates the exception. -/
theorem evaluate_catches_faults :
    (∀ (p : TrendParams) (raw : List (List PyVal)) (e : String),
      trendEvaluateCore p raw = .error e → trendEvaluate p raw = holdErr e) ∧
    (∀ (p : MeanRevParams) (raw : List (List PyVal)) (e : String),
      meanRevEvaluateCore p raw = .error e → meanRevEvaluate p raw = holdErr e) ∧
    (∀ (p : TurtleParams) (raw : List (List PyVal)) (e : String),
      turtleEvaluateCore p raw = .error e → turtleEvaluate p raw = holdErr e) ∧
    (∀ e, (holdErr e).action = "hold" ∧ (holdErr e).reason = "错误: " ++ e) := by
  refine ⟨?_, ?_, ?_, fun e => ⟨rfl, rfl⟩⟩
  · intro p raw e h
    unfold trendEvaluate
    rw [h]
  · intro p raw e h
    unfold meanRevEvaluate
    rw [h]
  · intro p raw e h
    unfold turtleEvaluate
    rw [h]

/-- A single kline with 12 cells whose `high` cell is the unparseable string
`"x"`. -/
def badKlines : List (List PyVal) :=
  [[.num 0, .num 1, .str "x", .num 1, .num 1, .num 1,
    .num 0, .num 0, .num 0, .num 0, .num 0, .num 0]]

/-- Witness for C10: on `badKlines` all three evaluation bodies raise the
float-conversion error and all three `evaluate`s return the hold-with-error
signal. -/
theorem evaluate_catches_faults_witness :
    trendEvaluate ⟨14, 2⟩ badKlines
      = holdErr "could not convert string to float: x" ∧
    meanRevEvaluate ⟨20, 2⟩ badKlines
      = holdErr "could not convert string to float: x" ∧
    turtleEvaluate ⟨20, 10, 20⟩ badKlines
      = holdErr "could not convert string to float: x" := by
  refine ⟨evaluate_catches_faults.1 ⟨14, 2⟩ badKlines _ (by rfl),
    evaluate_catches_faults.2.1 ⟨20, 2⟩ badKlines _ (by rfl),
    evaluate_catches_faults.2.2.1 ⟨20, 10, 20⟩ badKlines _ (by rfl)⟩

end Strategies

namespace Engine

/-- An externally visible action of one engine cycle: a DingTalk trade
notification, a placed market order, or a system alert after a failed order. -/
inductive EngineAction where
  | tradeNotification (action : String) (price : ℚ) (reason : String)
      (position_size : ℚ)
  | orderPlaced (side : String) (quantity : ℚ)
  | systemAlert (title msg : String)
  deriving Repr, DecidableEq

/-- `self.positions[symbol]` entry written after a successful order. -/
structure PositionState where
  side : String
  size : ℚ
  entry_price : ℚ
  deriving Repr, DecidableEq

/-- Outcome of `TradingEngine._execute_trade`: the external actions performed,
the returned boolean and the position update, if any. -/
structure ExecResult where
  actions : List EngineAction
  success : Bool
  newPosition : Option PositionState
  deriving Repr, DecidableEq

/-- `TradingEngine._execute_trade`: HOLD returns `True` immediately with no
external action; otherwise a trade notification is always sent, then the
monitor mode stops, the auto mode places the order (a raised order error is
caught, alerted and reported as `False`), any other mode returns `False`.
`orderOutcome` stands for the external exchange call. -/
def executeTrade (mode : String) (position_size : ℚ)
    (orderOutcome : Except String Unit) (signal : Strategies.Signal) : ExecResult :=
  if signal.action = "hold" then ⟨[], true, none⟩
  else
    let notif := EngineAction.tradeNotification signal.action
      ((signal.price).getD 0) signal.reason position_size
    if mode = "monitor" then ⟨[notif], true, none⟩
    else if mode = "auto" then
      match orderOutcome with
      | .ok _ =>
          ⟨[notif, .orderPlaced signal.action.toUpper position_size], true,
            some ⟨signal.action.toUpper, position_size, (signal.price).getD 0⟩⟩
      | .error e => ⟨[notif, .systemAlert "交易执行失败" ("错误: " ++ e)], false, none⟩
    else ⟨[notif], false, none⟩

/-- Result of one `TradingEngine.run_once_for_symbol` cycle for one symbol. -/
structure CycleResult where
  newLast : Option Strategies.Signal
  actions : List EngineAction
  success : Bool
  deriving Repr, DecidableEq

/-- `TradingEngine.run_once_for_symbol`: act only when the fresh signal
differs (full dict inequality) from `last_signals.get(symbol)` (`none` when
the symbol was never seen), then unconditionally store the new signal —
whether or not `_execute_trade` reported success. -/
def runOnceForSymbol (lastSig : Option Strategies.Signal)
    (signal : Strategies.Signal) (mode : String) (position_size : ℚ)
    (orderOutcome : Except String Unit) : CycleResult :=
  if some signal ≠ lastSig then
    let r := executeTrade mode position_size orderOutcome signal
    ⟨some signal, r.actions, r.success⟩
  else ⟨lastSig, [], true⟩

/-- C6: external actions happen only when the new signal differs structurally
from the stored one and is not a hold; a hold never acts even when it differs;
and whenever the signal differs the stored `last_signal` becomes the new
signal regardless of the reported execution outcome (in particular any
non-hold change — even a reason-only change — triggers an action attempt). -/
theorem dispatcher_acts_once_per_change (lastSig : Option Strategies.Signal)
    (signal : Strategies.Signal) (mode : String) (position_size : ℚ)
    (orderOutcome : Except String Unit) :
    ((runOnceForSymbol lastSig signal mode position_size orderOutcome).actions ≠ [] →
      some signal ≠ lastSig ∧ signal.action ≠ "hold") ∧
    (signal.action = "hold" →
      (runOnceForSymbol lastSig signal mode position_size orderOutcome).actions = []) ∧
    (some signal ≠ lastSig →
      (runOnceForSymbol lastSig signal mode position_size orderOutcome).newLast
        = some signal) ∧
    (some signal = lastSig →
      (runOnceForSymbol lastSig signal mode position_size orderOutcome).newLast = lastSig ∧
      (runOnceForSymbol lastSig signal mode position_size orderOutcome).actions = [] ∧
      (runOnceForSymbol lastSig signal mode position_size orderOutcome).success = true) ∧
    (some signal ≠ lastSig → signal.action ≠ "hold" →
      (runOnceForSymbol lastSig signal mode position_size orderOutcome).actions ≠ []) := by
  by_cases hd : some signal = lastSig
  · refine ⟨?_, ?_, fun hne => absurd hd hne, ?_, fun hne => absurd hd hne⟩
    · intro hact
      exact absurd (by simp [runOnceForSymbol, hd]) hact
    · intro _
      simp [runOnceForSymbol, hd]
    · intro _
      refine ⟨by simp [runOnceForSymbol, hd], by simp [runOnceForSymbol, hd],
        by simp [runOnceForSymbol, hd]⟩
  · have hr : runOnceForSymbol lastSig signal mode position_size orderOutcome
        = ⟨some signal,
            (executeTrade mode position_size orderOutcome signal).actions,
            (executeTrade mode position_size orderOutcome signal).success⟩ := by
      simp [runOnceForSymbol, hd]
    by_cases hh : signal.action = "hold"
    · refine ⟨?_, ?_, ?_, ?_, ?_⟩
      · intro hact
        exact absurd (by simp [hr, executeTrade, hh]) hact
      · intro _
        simp [hr, executeTrade, hh]
      · intro _
        simp [hr]
      · intro h
        exact absurd h hd
      · intro _ hna
        exact absurd hh hna
    · have hact : (executeTrade mode position_size orderOutcome signal).actions ≠ [] := by
        unfold executeTrade
        rw [if_neg hh]
        by_cases hm : mode = "monitor"
        · simp [hm]
        · rw [if_neg hm]
          by_cases ha : mode = "auto"
          · rw [if_pos ha]
            cases orderOutcome <;> simp
          · rw [if_neg ha]
            simp
      refine ⟨fun _ => ⟨hd, hh⟩, fun h => absurd h hh, fun _ => by simp [hr],
        fun h => absurd h hd, fun _ _ => ?_⟩
      simpa [hr] using hact

/-- Two otherwise identical BUY signals that differ only in their reason
text. -/
def sigBuyA : Strategies.Signal := ⟨"buy", "r1", some 100, none, none, none, none, []⟩

/-- The same BUY with a different reason. -/
def sigBuyB : Strategies.Signal := ⟨"buy", "r2", some 100, none, none, none, none, []⟩

/-- Witness for C6: a reason-only change of a BUY signal acts, and a failing
trade execution still overwrites `last_signal` (and reports `False`). -/
theorem dispatcher_acts_once_per_change_witness :
    (runOnceForSymbol (some sigBuyA) sigBuyB "auto" 1 (.error "boom")).newLast
      = some sigBuyB ∧
    (runOnceForSymbol (some sigBuyA) sigBuyB "auto" 1 (.error "boom")).actions ≠ [] ∧
    (runOnceForSymbol (some sigBuyA) sigBuyB "auto" 1 (.error "boom")).success
      = false := by
  have hne : some sigBuyB ≠ some sigBuyA := by
    simp [sigBuyA, sigBuyB]
  have h := dispatcher_acts_once_per_change (some sigBuyA) sigBuyB "auto" 1
    (.error "boom")
  refine ⟨h.2.2.1 hne, h.2.2.2.2 hne (by decide), ?_⟩
  rfl

end Engine

namespace Validation

/-- A strategy-parameter value: a Python `int`, `float` or `str`.
(`isinstance(x, int)` matches only the first.) -/
inductive PVal where
  | int (n : ℤ)
  | float (q : ℚ)
  | str (s : String)
  deriving Repr, DecidableEq

/-- `isinstance(x, int) and x > 0`, the positive-integer check. -/
def isPosInt : PVal → Bool
  | .int n => decide (0 < n)
  | _ => false

/-- `parameters['fast_period'] >= parameters['slow_period']`; both sides are
known to be ints when this comparison is reached. -/
def pvalGeB : PVal → PVal → Bool
  | .int a, .int b => decide (b ≤ a)
  | _, _ => false

/-- `str(x)` as interpolated into the timeframe error message. -/
def pvalText : PVal → String
  | .int n => toString n
  | .float q => toString q
  | .str s => s

/-- The valid-timeframe whitelist of `_validate_macd_parameters`. -/
def validTimeframes : List String :=
  ["1m", "3m", "5m", "15m", "30m", "1h", "2h", "4h", "6h", "8h", "12h",
   "1d", "3d", "1w", "1M"]

/-- `tf in valid_timeframes` (a non-string never matches). -/
def isValidTimeframe : PVal → Bool
  | .str s => validTimeframes.contains s
  | _ => false

/-- `StrategyServiceImpl._validate_macd_parameters`: presence of the four
required keys in order, positivity/int checks in order, the cross-field
`fast_period >= slow_period` check, then the timeframe whitelist. -/
def validateMacdParameters (params : List (String × PVal)) : Except String Bool :=
  match params.lookup "fast_period" with
  | none => .error "Missing required parameter: fast_period"
  | some fp =>
    match params.lookup "slow_period" with
    | none => .error "Missing required parameter: slow_period"
    | some sp =>
      match params.lookup "signal_period" with
      | none => .error "Missing required parameter: signal_period"
      | some gp =>
        match params.lookup "timeframe" with
        | none => .error "Missing required parameter: timeframe"
        | some tf =>
          if isPosInt fp = false then .error "fast_period must be a positive integer"
          else if isPosInt sp = false then .error "slow_period must be a positive integer"
          else if isPosInt gp = false then .error "signal_period must be a positive integer"
          else if pvalGeB fp sp = true then
            .error "fast_period must be less than slow_period"
          else if isValidTimeframe tf = false then
            .error ("Invalid timeframe: " ++ pvalText tf)
          else .ok true

/-- Character-level substring search over the suffixes of `s`. -/
def containsAux (pat : List Char) : List Char → Bool
  | [] => pat.isPrefixOf []
  | c :: cs => pat.isPrefixOf (c :: cs) || containsAux pat cs

/-- Substring test used to state that an error message names a field. -/
def containsSub (s pat : String) : Bool :=
  containsAux pat.data s.data

/-- C9 (amended with `signal_period` also a positive integer): under the
claim's hypotheses — all four keys present, `fast_period` and `slow_period`
positive ints, `fast_period ≥ slow_period` — validation never accepts the
parameter set; and when `signal_period` is additionally a positive int the
raised error is exactly the one naming both period fields. -/
theorem macd_validation_crossfield (params : List (String × PVal)) (f s : ℤ)
    (hf : params.lookup "fast_period" = some (.int f))
    (hs : params.lookup "slow_period" = some (.int s))
    (hg : (params.lookup "signal_period").isSome = true)
    (ht : (params.lookup "timeframe").isSome = true)
    (hfp : 0 < f) (hsp : 0 < s) (hge : s ≤ f) :
    (∀ g : ℤ, params.lookup "signal_period" = some (.int g) → 0 < g →
      validateMacdParameters params
        = .error "fast_period must be less than slow_period" ∧
      containsSub "fast_period must be less than slow_period" "fast_period" = true ∧
      containsSub "fast_period must be less than slow_period" "slow_period" = true) ∧
    (∀ b, validateMacdParameters params ≠ .ok b) := by
  obtain ⟨gp, hgp⟩ := Option.isSome_iff_exists.mp hg
  obtain ⟨tfv, htf⟩ := Option.isSome_iff_exists.mp ht
  constructor
  · intro g hgint hgpos
    refine ⟨?_, by decide, by decide⟩
    simp [validateMacdParameters, hf, hs, hgint, htf, isPosInt, pvalGeB, hfp,
      hsp, hgpos, hge]
  · intro b
    have hfP : isPosInt (.int f) = true := by simp [isPosInt, hfp]
    have hsP : isPosInt (.int s) = true := by simp [isPosInt, hsp]
    have hgeP : pvalGeB (.int f) (.int s) = true := by simp [pvalGeB, hge]
    by_cases hpos : isPosInt gp = true
    · -- signal_period passes: the cross-field check raises
      simp [validateMacdParameters, hf, hs, hgp, htf, hfP, hsP, hpos, hgeP]
    · -- signal_period itself is rejected first
      have hposF : isPosInt gp = false := by simpa using hpos
      simp [validateMacdParameters, hf, hs, hgp, htf, hfP, hsP, hposF]

/-- A parameter set meeting the amended hypotheses. -/
def eqPeriodParams : List (String × PVal) :=
  [("fast_period", .int 12), ("slow_period", .int 12),
   ("signal_period", .int 9), ("timeframe", .str "1h")]

/-- Witness for C9 at `fast_period = slow_period = 12`. -/
theorem macd_validation_crossfield_witness :
    validateMacdParameters eqPeriodParams
      = .error "fast_period must be less than slow_period" ∧
    (∀ b, validateMacdParameters eqPeriodParams ≠ .ok b) := by
  have h := macd_validation_crossfield eqPeriodParams 12 12
    (by rfl) (by rfl) (by rfl) (by rfl)
    (by norm_num) (by norm_num) (by norm_num)
  exact ⟨(h.1 9 (by rfl) (by norm_num)).1, h.2⟩

/-- The claim's hypotheses with an invalid `signal_period`. -/
def badSignalParams : List (String × PVal) :=
  [("fast_period", .int 2), ("slow_period", .int 2),
   ("signal_period", .int 0), ("timeframe", .str "1h")]

/-- C9 as stated is false: all required keys are present, `fast_period` and
`slow_period` are positive ints with `fast_period ≥ slow_period`, yet because
`signal_period = 0` the raised message is about `signal_period` and names
neither `fast_period` nor `slow_period`. -/
theorem macd_validation_wrong_field_named :
    badSignalParams.lookup "fast_period" = some (.int 2) ∧
    badSignalParams.lookup "slow_period" = some (.int 2) ∧
    badSignalParams.lookup "signal_period" = some (.int 0) ∧
    badSignalParams.lookup "timeframe" = some (.str "1h") ∧
    (0 : ℤ) < 2 ∧ (2 : ℤ) ≤ 2 ∧
    validateMacdParameters badSignalParams
      = .error "signal_period must be a positive integer" ∧
    containsSub "signal_period must be a positive integer" "fast_period" = false ∧
    containsSub "signal_period must be a positive integer" "slow_period" = false := by
  refine ⟨rfl, rfl, rfl, rfl, by norm_num, by norm_num, rfl, by decide, by decide⟩

end Validation
